import Mathlib

/-!
Shallow embedding of the viewbuilder-core crate (BleuShan/viewbuilder-rs).

The source tree carries two generations of the transform module:

* `src/viewbuilder-core/src/transform.rs` — traits with associated
  `Input`/`Output` types: `Transform`, `InversibleTransform`,
  `RevertableTransform`, and the blanket implementation of
  `RevertableTransform` for every qualifying `InversibleTransform`.
* `src/viewbuilder-core/src/transform/mod.rs` together with
  `src/viewbuilder-core/src/transform/impls.rs` — the three-tier capability
  hierarchy `OnceTransform<Input>` / `MutableTransform<Input>` /
  `Transform<Input>` and the reference-forwarding implementations.

A Rust trait implementation for a carrier type `T` is embedded as a record of
the trait methods over `T`.  A method taking `&mut self` is embedded in
state-passing style, returning the updated carrier value alongside the output;
a method taking `&self` or `self` returns the output alone (a shared borrow
cannot mutate the referent, and a consumed value has no observable post-state).

`Position` (`src/viewbuilder-core/src/layout/position.rs`) wraps a packed
two-lane float64 vector (`simba::simd::f64x2`).  IEEE float64 values are
modelled by `F64`: finite values as rationals plus the two infinities and NaN,
with the IEEE `==` comparison (NaN compares unequal to everything, itself
included).  The layout code performs no float arithmetic — only storing,
extracting and comparing lanes — so this model captures exactly the behaviour
the claims exercise.
-/

namespace Viewbuilder

/-! ## Old-style transform module: `src/viewbuilder-core/src/transform.rs` -/

/-- Rust trait `Transform` (transform.rs lines 42-54): carrier `T`, associated
types `Input = α` and `Output = β`, method `apply(&self, input) -> Output`. -/
structure TransformImpl (T : Type) (α β : Type) where
  apply : T → α → β

/-- Rust trait `InversibleTransform` (transform.rs lines 123-132) for carrier
`T`, together with the side conditions of the blanket `RevertableTransform`
implementation (lines 230-238): the associated `Inverse` type `U` is itself a
`Transform` whose `Input` is `T::Output = β` and whose `Output` is
`T::Input = α`.  That requirement is what the type of `inverseTransform`
records. -/
structure InversibleTransformImpl (T U : Type) (α β : Type) where
  toTransform : TransformImpl T α β
  inverseTransform : TransformImpl U β α
  invert : T → U

/-- Rust trait `RevertableTransform` (transform.rs lines 222-228):
`revert(&self, input: Output) -> Input`. -/
structure RevertableTransformImpl (T : Type) (α β : Type) where
  toTransform : TransformImpl T α β
  revert : T → β → α

/-- The blanket implementation
`impl<InversibleType> RevertableTransform for InversibleType`
(transform.rs lines 230-238): `revert(&self, input)` is
`self.invert().apply(input)`. -/
def revertableOfInversible {T U α β : Type} (it : InversibleTransformImpl T U α β) :
    RevertableTransformImpl T α β where
  toTransform := it.toTransform
  revert t input := it.inverseTransform.apply (it.invert t) input

/-- The doctest struct `Add(i32)` of transform.rs, with its `value` accessor.
The i32 domain is modelled by `Int`; no claim exercises the i32 boundaries. -/
structure Add where
  value : Int
deriving DecidableEq

/-- The doctest struct `Sub(i32)` of transform.rs, with its `value` accessor. -/
structure Sub where
  value : Int
deriving DecidableEq

/-- Doctest `impl Transform for Add`: `apply(&self, input) = input + self.value()`. -/
def Add.transform : TransformImpl Add Int Int where
  apply a input := input + a.value

/-- Doctest `impl Transform for Sub`: `apply(&self, input) = input - self.value()`. -/
def Sub.transform : TransformImpl Sub Int Int where
  apply s input := input - s.value

/-- Doctest `impl InversibleTransform for Add`:
`type Inverse = Sub; invert(&self) = Sub::new(self.value())`. -/
def Add.inversible : InversibleTransformImpl Add Sub Int Int where
  toTransform := Add.transform
  inverseTransform := Sub.transform
  invert a := Sub.mk a.value

/-! ## New-style transform hierarchy: `src/viewbuilder-core/src/transform/mod.rs` -/

/-- Rust trait `OnceTransform<Input>` (transform/mod.rs lines 136-147):
`apply_once(self, input) -> Output` consumes the transform value. -/
structure OnceTransformImpl (T Input Output : Type) where
  apply_once : T → Input → Output

/-- Rust trait `MutableTransform<Input>` (transform/mod.rs lines 99-107),
refining `OnceTransform<Input>`: `apply_mut(&mut self, input) -> Output`, in
state-passing style returning the updated carrier alongside the output. -/
structure MutableTransformImpl (T Input Output : Type) extends
    OnceTransformImpl T Input Output where
  apply_mut : T → Input → Output × T

/-- Rust trait `Transform<Input>` (transform/mod.rs lines 49-57), refining
`MutableTransform<Input>`: `apply(&self, input) -> Output`. -/
structure TransformHierImpl (T Input Output : Type) extends
    MutableTransformImpl T Input Output where
  apply : T → Input → Output

/-- The reference-forwarding implementations of transform/impls.rs lines 5-35
for `&TransformType` where `TransformType: Transform<Input>`:
`Transform::apply` delegates to `(**self).apply`; `MutableTransform::apply_mut`
calls `(**self).apply` and, holding only a shared borrow, leaves the referent
unchanged; `OnceTransform::apply_once` calls `(*self).apply`.  The carrier of
the forwarded implementation is the referent value itself. -/
def refTransform {T I O : Type} (h : TransformHierImpl T I O) :
    TransformHierImpl T I O where
  apply_once t input := h.apply t input
  apply_mut t input := (h.apply t input, t)
  apply t input := h.apply t input

/-- The reference-forwarding implementations of transform/impls.rs lines 37-57
for `&mut TransformType` where `TransformType: MutableTransform<Input>`:
`apply_mut` delegates to `(**self).apply_mut`, `apply_once` to
`(*self).apply_mut`. -/
def mutRefMutable {T I O : Type} (m : MutableTransformImpl T I O) :
    MutableTransformImpl T I O where
  apply_once t input := (m.apply_mut t input).1
  apply_mut t input := m.apply_mut t input

/-- The `apply` body of the transform/mod.rs doctest `impl Transform<i32> for Add`:
`input + value`. -/
def Add.hierApply (a : Add) (input : Int) : Int :=
  input + a.value

/-- The transform/mod.rs doctest implementation of the full hierarchy for
`Add`: `apply_once(self, input) = self.apply(input)`,
`apply_mut(&mut self, input) = self.apply(input)` (the body does not mutate the
receiver), `apply(&self, input) = input + value`. -/
def Add.hier : TransformHierImpl Add Int Int where
  apply_once a input := Add.hierApply a input
  apply_mut a input := (Add.hierApply a input, a)
  apply := Add.hierApply

/-! ## Position: `src/viewbuilder-core/src/layout/position.rs` -/

/-- Model of an IEEE float64 value: finite values as rationals, the two
infinities, and NaN.  Adequate for position.rs, which performs no float
arithmetic — only storage, extraction and IEEE comparison of lanes. -/
inductive F64 where
  | num (v : ℚ)
  | inf
  | negInf
  | nan
deriving DecidableEq

/-- IEEE float64 `==`: NaN compares unequal to everything, itself included;
finite values compare by value. -/
def F64.beq : F64 → F64 → Bool
  | .nan, _ => false
  | _, .nan => false
  | .num a, .num b => decide (a = b)
  | .inf, .inf => true
  | .negInf, .negInf => true
  | _, _ => false

/-- `simba::simd::f64x2`: a packed two-lane float64 vector. -/
structure f64x2 where
  lane0 : F64
  lane1 : F64
deriving DecidableEq

/-- `f64x2::new(x, y)`: lane 0 holds `x`, lane 1 holds `y`. -/
def f64x2.new (x y : F64) : f64x2 :=
  f64x2.mk x y

/-- `f64x2::zero()` (`num_traits::Zero`): both lanes `0.0`. -/
def f64x2.zero : f64x2 :=
  f64x2.mk (F64.num 0) (F64.num 0)

/-- `SimdValue::extract(i)`: read lane `i`. -/
def f64x2.extract (v : f64x2) (i : Fin 2) : F64 :=
  if i = 0 then v.lane0 else v.lane1

/-- `PartialEq` on `f64x2`: lanewise IEEE equality, both lanes must compare
equal. -/
def f64x2.beq (a b : f64x2) : Bool :=
  F64.beq a.lane0 b.lane0 && F64.beq a.lane1 b.lane1

/-- Lane index constant `X` (position.rs line 11). -/
def X : Fin 2 := 0

/-- Lane index constant `Y` (position.rs line 12). -/
def Y : Fin 2 := 1

/-- `struct Position { origin: f64x2 }` (position.rs lines 14-19). -/
structure Position where
  origin : f64x2
deriving DecidableEq

/-- `impl From<f64x2> for Position` (position.rs lines 48-53). -/
def Position.ofVec (v : f64x2) : Position :=
  Position.mk v

/-- `Position::new(x, y)` (position.rs lines 22-26):
`Self::from(f64x2::new(x, y))`. -/
def Position.new (x y : F64) : Position :=
  Position.ofVec (f64x2.new x y)

/-- `Position::origin()` (position.rs lines 28-33): `Self::from(f64x2::zero())`. -/
def Position.originPoint : Position :=
  Position.ofVec f64x2.zero

/-- `Position::x(&self)` (position.rs lines 35-39): `self.origin.extract(X)`. -/
def Position.x (p : Position) : F64 :=
  p.origin.extract X

/-- `Position::y(&self)` (position.rs lines 41-45): `self.origin.extract(Y)`. -/
def Position.y (p : Position) : F64 :=
  p.origin.extract Y

/-- `impl Default for Position` (position.rs lines 55-60): `Self::origin()`. -/
def Position.default : Position :=
  Position.originPoint

/-- Derived `PartialEq` on `Position`: equality of the wrapped `f64x2`. -/
def Position.beq (p q : Position) : Bool :=
  f64x2.beq p.origin q.origin

/-! ## Theorems -/

/-- C1: every `InversibleTransform` carrier whose declared `Inverse` is a
`Transform` with `Input = T::Output` and `Output = T::Input` gains
`RevertableTransform` through the single blanket implementation
`revertableOfInversible`, and for every carrier value and every output value,
`revert` is exactly `invert`-then-`apply`, with no per-type revert code. -/
theorem C1_blanket_revert_is_invert_then_apply {T U α β : Type}
    (it : InversibleTransformImpl T U α β) (t : T) (o : β) :
    (revertableOfInversible it).revert t o = it.inverseTransform.apply (it.invert t) o :=
  rfl

/-- C2: for every `Transform<Input>` implementation the source defines — the
shared-reference forwarding implementation built from an arbitrary underlying
implementation, and the documented `Add` implementation — `apply`, `apply_mut`
and `apply_once` on the same carrier value and input yield identical outputs:
the three capability tiers never diverge in result for equal inputs. -/
theorem C2_capability_tiers_agree :
    (∀ (T I O : Type) (h : TransformHierImpl T I O) (t : T) (i : I),
      ((refTransform h).apply_mut t i).1 = (refTransform h).apply t i ∧
      (refTransform h).apply_once t i = (refTransform h).apply t i) ∧
    (∀ (a : Add) (i : Int),
      (Add.hier.apply_mut a i).1 = Add.hier.apply a i ∧
      Add.hier.apply_once a i = Add.hier.apply a i) :=
  ⟨fun _ _ _ _ _ _ => ⟨rfl, rfl⟩, fun _ _ => ⟨rfl, rfl⟩⟩

/-- C3: for an `InversibleTransform` whose inverse satisfies the input/output
matching rule, and for every value in the well-defined domain of the transform
— the domain on which the declared inverse is a mathematical left inverse of
the forward application, which is all the library guarantees — reverting an
applied value recovers the original exactly. -/
theorem C3_revert_roundtrip {T U α β : Type} (it : InversibleTransformImpl T U α β)
    (t : T)
    (hinv : Function.LeftInverse (it.inverseTransform.apply (it.invert t))
      (it.toTransform.apply t)) (v : α) :
    (revertableOfInversible it).revert t (it.toTransform.apply t v) = v :=
  hinv v

/-- Witness for C3 at the documented `Add`/`Sub` pair: `Add(5)` with input
`10`. -/
theorem C3_revert_roundtrip_witness :
    (revertableOfInversible Add.inversible).revert (Add.mk 5)
      (Add.inversible.toTransform.apply (Add.mk 5) 10) = 10 :=
  C3_revert_roundtrip Add.inversible (Add.mk 5)
    (fun v => by
      simp [Add.inversible, Add.transform, Sub.transform])
    10

/-- C4: a shared reference used as a `Transform` produces the same output as
calling `apply` directly on the referent, and a mutable reference used as a
`MutableTransform` delegates `apply_mut` to the referent (same output and same
updated state). -/
theorem C4_reference_forwarding :
    (∀ (T I O : Type) (h : TransformHierImpl T I O) (t : T) (i : I),
      (refTransform h).apply t i = h.apply t i) ∧
    (∀ (T I O : Type) (m : MutableTransformImpl T I O) (t : T) (i : I),
      (mutRefMutable m).apply_mut t i = m.apply_mut t i) :=
  ⟨fun _ _ _ _ _ _ => rfl, fun _ _ _ _ _ _ => rfl⟩

/-- C5: for all float64 values `x` and `y`, finite or not,
`Position::new(x, y)` reports `x()` equal to `x` and `y()` equal to `y`, with
`x` stored in lane 0 and `y` in lane 1 of the packed vector. -/
theorem C5_position_new_accessors (x y : F64) :
    (Position.new x y).x = x ∧ (Position.new x y).y = y ∧
    (Position.new x y).origin.lane0 = x ∧ (Position.new x y).origin.lane1 = y :=
  ⟨rfl, rfl, rfl, rfl⟩

/-- A helper fact shared by the equality theorems: IEEE comparison on the
float64 model is symmetric. -/
theorem F64.beq_symm (a b : F64) : F64.beq a b = F64.beq b a := by
  cases a <;> cases b <;> simp [F64.beq]
  exact eq_comm

/-- C6: `Position` equality is componentwise exact floating-point equality —
two positions compare equal exactly when their x components compare equal and
their y components compare equal; it is reflexive for finite coordinates and
symmetric, and a position with a NaN component is never equal to itself. -/
theorem C6_position_equality :
    (∀ p q : Position, Position.beq p q = (F64.beq p.x q.x && F64.beq p.y q.y)) ∧
    (∀ a b : ℚ, Position.beq (Position.new (F64.num a) (F64.num b))
      (Position.new (F64.num a) (F64.num b)) = true) ∧
    (∀ p q : Position, Position.beq p q = Position.beq q p) ∧
    (∀ p : Position, p.x = F64.nan ∨ p.y = F64.nan → Position.beq p p = false) := by
  refine ⟨fun p q => rfl, fun a b => by simp [Position.beq, Position.new,
    Position.ofVec, f64x2.new, f64x2.beq, F64.beq], fun p q => ?_, fun p h => ?_⟩
  · simp only [Position.beq, f64x2.beq]
    rw [F64.beq_symm p.origin.lane0 q.origin.lane0,
      F64.beq_symm p.origin.lane1 q.origin.lane1]
  · have hx : p.x = p.origin.lane0 := rfl
    have hy : p.y = p.origin.lane1 := rfl
    rcases h with h | h
    · rw [hx] at h
      simp [Position.beq, f64x2.beq, h, F64.beq]
    · rw [hy] at h
      simp [Position.beq, f64x2.beq, h, F64.beq]

/-- Witness for C6: the NaN clause applied at a concrete position whose x
component is NaN. -/
theorem C6_position_equality_witness :
    Position.beq (Position.new F64.nan (F64.num 0))
      (Position.new F64.nan (F64.num 0)) = false :=
  C6_position_equality.2.2.2 (Position.new F64.nan (F64.num 0)) (Or.inl rfl)

/-- C7: in the documented discrete scenario, `Add(5)` applied to `10` yields
`15`; its declared inverse is `Sub(5)`, which applied to `15` yields `10`; and
`revert(15)` on `Add(5)` also yields `10`. -/
theorem C7_add_sub_scenario :
    Add.transform.apply (Add.mk 5) 10 = 15 ∧
    Add.inversible.invert (Add.mk 5) = Sub.mk 5 ∧
    Sub.transform.apply (Add.inversible.invert (Add.mk 5)) 15 = 10 ∧
    (revertableOfInversible Add.inversible).revert (Add.mk 5) 15 = 10 := by
  refine ⟨by decide, rfl, by decide, by decide⟩

/-- C8: every operation of the core — `apply`, `apply_mut`, `apply_once` of the
hierarchy, `invert` and the blanket `revert`, and `Position` construction and
accessors — is a total function: for every input it produces a value, with no
error, panic or other failure channel (none of the embedded signatures needs
`Option` or `Except`). -/
theorem C8_operations_total :
    (∀ (T I O : Type) (h : TransformHierImpl T I O) (t : T) (i : I),
      (∃ o, h.apply t i = o) ∧ (∃ r, h.apply_mut t i = r) ∧
      (∃ o, h.apply_once t i = o)) ∧
    (∀ (T U α β : Type) (it : InversibleTransformImpl T U α β) (t : T) (b : β),
      (∃ u, it.invert t = u) ∧
      (∃ a, (revertableOfInversible it).revert t b = a)) ∧
    (∀ x y : F64, ∃ p, Position.new x y = p) ∧
    (∀ p : Position, (∃ v, p.x = v) ∧ (∃ v, p.y = v)) :=
  ⟨fun _ _ _ h t i => ⟨⟨h.apply t i, rfl⟩, ⟨h.apply_mut t i, rfl⟩,
      ⟨h.apply_once t i, rfl⟩⟩,
    fun _ _ _ _ it t b => ⟨⟨it.invert t, rfl⟩,
      ⟨(revertableOfInversible it).revert t b, rfl⟩⟩,
    fun x y => ⟨Position.new x y, rfl⟩,
    fun p => ⟨⟨p.x, rfl⟩, ⟨p.y, rfl⟩⟩⟩

/-- C9: `Position::origin()` is the same value as `Position::new(0.0, 0.0)`,
its `x()` and `y()` are both `0.0`, and `Position::default()` returns the same
origin value. -/
theorem C9_origin_default :
    Position.originPoint = Position.new (F64.num 0) (F64.num 0) ∧
    Position.originPoint.x = F64.num 0 ∧
    Position.originPoint.y = F64.num 0 ∧
    Position.default = Position.originPoint :=
  ⟨rfl, rfl, rfl, rfl⟩

/-- C10: the forwarding implementations on a shared reference route
`apply_mut` and `apply_once` to the referent's shared `apply` — the outputs of
all three tiers equal the referent's `apply` — and applying through the shared
reference leaves the referent unchanged. -/
theorem C10_shared_ref_routes_to_apply :
    ∀ (T I O : Type) (h : TransformHierImpl T I O) (t : T) (i : I),
      ((refTransform h).apply_mut t i).1 = h.apply t i ∧
      ((refTransform h).apply_mut t i).2 = t ∧
      (refTransform h).apply_once t i = h.apply t i ∧
      (refTransform h).apply t i = h.apply t i :=
  fun _ _ _ _ _ _ => ⟨rfl, rfl, rfl, rfl⟩

end Viewbuilder
